import Mathlib

/-
  Verification of the ts-safe chain engine (src/result.ts, src/core.ts,
  src/shared.ts) against its natural-language specification.

  The JavaScript value universe is embedded shallowly: promise-like values
  carry their eventual single-shot settlement, error objects carry an
  identity tag plus a message so that object identity (pass-through
  unchanged) is expressible, and other objects carry the outcome of
  attempting to JSON-serialize them.
-/

namespace TsSafe

/-- Shallow embedding of the JavaScript values the chain engine handles.
A promise-like value records its eventual settlement; an error object
records an identity tag and its message; an opaque object records the
outcome of JSON-serializing it (none means serialization throws). -/
inductive JSVal : Type where
  | num (n : Int)
  | str (s : String)
  | boolean (b : Bool)
  | undef
  | errObj (id : Nat) (msg : String)
  | resolvedPromise (v : JSVal)
  | rejectedPromise (e : JSVal)
  | obj (id : Nat) (json : Option String)
deriving DecidableEq

/-- Settlement of a promise-like value: eventual fulfillment or rejection. -/
inductive SettleOut : Type where
  | sresolved (v : JSVal)
  | srejected (e : JSVal)
deriving DecidableEq

/-- Embeds isPromiseLike from src/shared.ts: the single runtime test for
a pending (thenable) value. -/
def isPromiseLike : JSVal → Bool
  | .resolvedPromise _ => true
  | .rejectedPromise _ => true
  | _ => false

/-- JavaScript promise-resolution (thenable adoption): awaiting a value
follows chains of fulfillments, so a promise fulfilled with another
promise settles to the inner settlement; a rejection reason is taken
as-is; a non-promise value settles to itself. -/
def awaitVal : JSVal → SettleOut
  | .resolvedPromise v => awaitVal v
  | .rejectedPromise e => .srejected e
  | v => .sresolved v

/-- Embeds the instanceof Error test used by normalizeError. -/
def instanceofError : JSVal → Bool
  | .errObj _ _ => true
  | _ => false

/-- Model of the ECMAScript builtin JSON.stringify on this value
universe: ok (some s) is a returned string, ok none is a returned
undefined (e.g. for undefined input), and error t means stringify threw
t — per ECMAScript a TypeError, never the input value itself. -/
def jsonStringify : JSVal → Except JSVal (Option String)
  | .num n => .ok (some (toString n))
  | .str s => .ok (some ("\"" ++ s ++ "\""))
  | .boolean b => .ok (some (cond b "true" "false"))
  | .undef => .ok none
  | .errObj _ _ => .ok (some "\x7b\x7d")
  | .resolvedPromise _ => .ok (some "\x7b\x7d")
  | .rejectedPromise _ => .ok (some "\x7b\x7d")
  | .obj _ (some s) => .ok (some s)
  | .obj _ none => .error (.errObj 0 "Converting circular structure to JSON")

/-- Embeds normalizeError from src/result.ts: an Error instance passes
through unchanged; a string becomes a fresh Error with that message; any
other value becomes a fresh Error whose message is its JSON
serialization, and if the serialization throws, the catch clause returns
the caught thrown value (the catch parameter shadows the input). -/
def normalizeError : JSVal → JSVal
  | .errObj i m => .errObj i m
  | .str s => .errObj 0 s
  | e =>
    match jsonStringify e with
    | .ok m => .errObj 0 (m.getD "")
    | .error t => t

/-- Embeds SafeResult from src/result.ts: a tagged success/failure
container. The success side holds the value; the failure side holds the
(normalized) error. -/
inductive SResult : Type where
  | ok (value : JSVal)
  | fail (error : JSVal)
deriving DecidableEq

/-- Embeds the ok constructor from src/result.ts. -/
def sok (v : JSVal) : SResult := .ok v

/-- Embeds the fail constructor from src/result.ts: the stored error is
the normalized form of the raised value. -/
def sfail (e : JSVal) : SResult := .fail (normalizeError e)

/-- Outcome of running a JavaScript callback: it either returns a value
(possibly promise-like) or throws. -/
inductive CbOut : Type where
  | ret (v : JSVal)
  | thrown (e : JSVal)
deriving DecidableEq

/-- Embeds the two-argument then(ok, fail) folding step of update in
src/result.ts: a thrown or rejected outcome becomes fail, a returned
value is adopted (awaited, flattening nested promises) and becomes ok on
fulfillment or fail on rejection. -/
def applyFold : CbOut → SResult
  | .thrown e => sfail e
  | .ret v =>
    match awaitVal v with
    | .sresolved w => sok w
    | .srejected e => sfail e

/-- State of a chain handle created by createChain in src/core.ts: it
wraps either an immediate SafeResult or a pending one (a promise that
always fulfills with a SafeResult). -/
inductive ChainState : Type where
  | immediate (r : SResult)
  | pending (r : SResult)
deriving DecidableEq

/-- Embeds update from src/result.ts: a pending input keeps the whole
operation pending, applying the callback to the resolved result and
folding with then(ok, fail); an immediate input runs the callback in a
guarded scope — a promise-like return makes the output pending and is
folded, an ordinary return becomes an immediate ok, a synchronous throw
becomes an immediate fail. -/
def update (prev : ChainState) (cb : SResult → CbOut) : ChainState :=
  match prev with
  | .pending r => .pending (applyFold (cb r))
  | .immediate r =>
    match cb r with
    | .thrown e => .immediate (sfail e)
    | .ret v =>
      if isPromiseLike v then .pending (applyFold (.ret v))
      else .immediate (sok v)

/-- Observable outcome of unwrap: a synchronous return, a synchronous
raise, or a returned pending value with its eventual settlement. -/
inductive UnwrapOut : Type where
  | val (v : JSVal)
  | raised (e : JSVal)
  | pendingVal (s : SettleOut)
deriving DecidableEq

/-- Embeds unwrap from src/core.ts: an immediate chain returns the value
or throws the error; a pending chain returns a pending value that adopts
the success value (resolving it if it were itself promise-like) or
rejects with the error. -/
def unwrap : ChainState → UnwrapOut
  | .immediate (.ok v) => .val v
  | .immediate (.fail e) => .raised e
  | .pending (.ok v) => .pendingVal (awaitVal v)
  | .pending (.fail e) => .pendingVal (.srejected e)

/-- Observable form of the isOk property: a plain boolean for an
immediate chain, a pending boolean for a pending chain. -/
inductive IsOkOut : Type where
  | plain (b : Bool)
  | pendingBool (b : Bool)
deriving DecidableEq

/-- Embeds the isOk property from src/core.ts. -/
def isOkOf : ChainState → IsOkOut
  | .immediate (.ok _) => .plain true
  | .immediate (.fail _) => .plain false
  | .pending (.ok _) => .pendingBool true
  | .pending (.fail _) => .pendingBool false

/-- Callback handed to update by map in src/core.ts: on success apply
the transform (which may itself return or throw anything), on failure
re-throw the prior error. -/
def mapCb (transform : JSVal → CbOut) : SResult → CbOut
  | .ok v => transform v
  | .fail e => .thrown e

/-- Embeds map from src/core.ts. -/
def mapChain (transform : JSVal → CbOut) (c : ChainState) : ChainState :=
  update c (mapCb transform)

/-- Converts the observable outcome of an inner chain's unwrap back into
a callback outcome, as flatMap's callback observes it: a synchronous
value is returned, a synchronous raise propagates, a pending value is
returned as a promise with the same settlement. -/
def unwrapToCb : UnwrapOut → CbOut
  | .val w => .ret w
  | .raised e => .thrown e
  | .pendingVal (.sresolved w) => .ret (.resolvedPromise w)
  | .pendingVal (.srejected e) => .ret (.rejectedPromise e)

/-- Callback handed to update by flatMap in src/core.ts: on success
return transform(value).unwrap(), on failure re-throw the prior error. -/
def flatMapCb (transform : JSVal → ChainState) : SResult → CbOut
  | .ok v => unwrapToCb (unwrap (transform v))
  | .fail e => .thrown e

/-- Embeds flatMap from src/core.ts. -/
def flatMapChain (transform : JSVal → ChainState) (c : ChainState) : ChainState :=
  update c (flatMapCb transform)

/-- Embeds v.then(fun _ => w) as used by effect/ifOk in src/core.ts: a
promise that waits for p and then yields w, or propagates p's
rejection. -/
def thenReturn (p : JSVal) (w : JSVal) : JSVal :=
  match awaitVal p with
  | .sresolved _ => .resolvedPromise w
  | .srejected e => .rejectedPromise e

/-- Callback handed to update by effect in src/core.ts: on failure
re-throw; on success run the effect function — if it returns a
promise-like value, wait for it and then yield the original value
(rejection handled by the fold), otherwise yield the original value. -/
def effectCb (effectFn : JSVal → CbOut) : SResult → CbOut
  | .fail e => .thrown e
  | .ok v =>
    match effectFn v with
    | .thrown e => .thrown e
    | .ret u => if isPromiseLike u then .ret (thenReturn u v) else .ret v

/-- Embeds effect from src/core.ts. -/
def effectChain (effectFn : JSVal → CbOut) (c : ChainState) : ChainState :=
  update c (effectCb effectFn)

/-- Callback handed to update by ifOk in src/core.ts (same body as
effect). -/
def ifOkCb (effectFn : JSVal → CbOut) : SResult → CbOut
  | .fail e => .thrown e
  | .ok v =>
    match effectFn v with
    | .thrown e => .thrown e
    | .ret u => if isPromiseLike u then .ret (thenReturn u v) else .ret v

/-- Embeds ifOk from src/core.ts. -/
def ifOkChain (effectFn : JSVal → CbOut) (c : ChainState) : ChainState :=
  update c (ifOkCb effectFn)

/-- Callback handed to update by watch in src/core.ts: the consumer is
invoked on a spread copy of the full result inside a try with an empty
catch, so whatever it returns or throws is discarded; then the original
value is returned or the original error re-thrown. -/
def watchCb (consumer : SResult → CbOut) (r : SResult) : CbOut :=
  let _ := consumer r
  match r with
  | .ok v => .ret v
  | .fail e => .thrown e

/-- Embeds watch from src/core.ts. -/
def watchChain (consumer : SResult → CbOut) (c : ChainState) : ChainState :=
  update c (watchCb consumer)

/-- Callback handed to update by the catch method in src/core.ts: on
failure return handler(error) as the recovery value, on success pass the
value through. -/
def catchCb (handler : JSVal → CbOut) : SResult → CbOut
  | .fail e => handler e
  | .ok v => .ret v

/-- Embeds the catch method from src/core.ts. -/
def catchChain (handler : JSVal → CbOut) (c : ChainState) : ChainState :=
  update c (catchCb handler)

/-- Callback handed to update by ifFail in src/core.ts (same body as the
catch method). -/
def ifFailCb (handler : JSVal → CbOut) : SResult → CbOut
  | .fail e => handler e
  | .ok v => .ret v

/-- Embeds ifFail from src/core.ts. -/
def ifFailChain (handler : JSVal → CbOut) (c : ChainState) : ChainState :=
  update c (ifFailCb handler)

/-- Callback handed to update by orElse in src/core.ts: on failure
return the fallback, on success return the value. -/
def orElseCb (fallback : JSVal) : SResult → CbOut
  | .fail _ => .ret fallback
  | .ok v => .ret v

/-- Embeds orElse from src/core.ts: update with the fallback callback,
then unwrap the resulting chain. -/
def orElseRun (c : ChainState) (fallback : JSVal) : UnwrapOut :=
  unwrap (update c (orElseCb fallback))

/-- Embeds safeValue from src/core.ts: map a callback returning the
value over a fresh chain wrapping ok(undefined). (The try/catch around
the map call is dead code: map itself never throws.) -/
def safeValue (value : JSVal) : ChainState :=
  mapChain (fun _ => .ret value) (.immediate (sok .undef))

/-- Embeds safeExec from src/core.ts: map a callback invoking the thunk
over a fresh chain wrapping ok(undefined); the thunk may return or
throw. -/
def safeExec (fn : Unit → CbOut) : ChainState :=
  mapChain (fun _ => fn ()) (.immediate (sok .undef))

/-- Embeds safeEmpty from src/core.ts. -/
def safeEmpty : ChainState := .immediate (sok .undef)

/-- Well-formedness of a result reachable through the public chain API:
a stored success value is never promise-like (update always awaits
promise-like outcomes before storing them) and a stored error is always
an Error instance (fail always normalizes). -/
def resultWF : SResult → Bool
  | .ok v => !isPromiseLike v
  | .fail e => instanceofError e

/-- Well-formedness of a chain state: its underlying result is
well-formed. -/
def chainWF : ChainState → Bool
  | .immediate r => resultWF r
  | .pending r => resultWF r

/-- Result stored in a chain state, regardless of timing. -/
def stateResult : ChainState → SResult
  | .immediate r => r
  | .pending r => r

/-- Eventual settlement an unwrap outcome presents to the caller: a
synchronous value and a fulfilled pending value settle to the value, a
synchronous raise and a rejected pending value settle to the error. -/
def uwSettle : UnwrapOut → SettleOut
  | .val v => .sresolved v
  | .raised e => .srejected e
  | .pendingVal s => s

/-- True when an unwrap-like outcome surfaces a failure to the caller,
either as a synchronous raise or as a rejecting pending value. -/
def raisesOut : UnwrapOut → Bool
  | .raised _ => true
  | .pendingVal (.srejected _) => true
  | _ => false

/-- True when a chain state is pending. -/
def isPendingChain : ChainState → Bool
  | .pending _ => true
  | .immediate _ => false

/-- Specification-side fold (from the spec, update rule 3): a pending
return value makes the final Result pending, later resolved to ok of
the resolved value on success or fail of the rejection reason on
rejection; an ordinary return value makes the final Result an immediate
success wrapping it; a synchronous raise makes the final Result an
immediate failure. -/
def foldOutcomeSpec : CbOut → ChainState
  | .thrown e => .immediate (sfail e)
  | .ret v =>
    if isPromiseLike v then
      .pending (match awaitVal v with
        | .sresolved w => sok w
        | .srejected e => sfail e)
    else .immediate (sok v)

/-- Specification-side updater (from the spec, update rules 1 and 2): a
pending input makes the whole operation pending, the callback being
applied to the resolved Result and its outcome folded per rule 3; an
immediate input runs the callback synchronously and folds per rule 3. -/
def updateSpec (prev : ChainState) (cb : SResult → CbOut) : ChainState :=
  match prev with
  | .pending r => .pending (stateResult (foldOutcomeSpec (cb r)))
  | .immediate r => foldOutcomeSpec (cb r)

/-- Specification-side normalization, per the amended claim: an Error
instance passes through unchanged; a plain string becomes a structured
error whose message is that string; any other value becomes a
structured error with a best-effort serialized message, falling back to
the value raised by the failed serialization attempt (not the original
raw value) if serialization fails — and normalization never raises. -/
def normalizeErrorSpec (e : JSVal) : JSVal :=
  if instanceofError e then e
  else
    match e with
    | .str s => .errObj 0 s
    | _ =>
      match jsonStringify e with
      | .ok m => .errObj 0 (m.getD "")
      | .error raised => raised

/-- One step of a chain sequence: each public chain operation, applied
to the chain produced so far (each delegates to update with its own
callback, per src/core.ts). -/
inductive ChainOp : Type where
  | opMap (transform : JSVal → CbOut)
  | opFlatMap (transform : JSVal → ChainState)
  | opEffect (effectFn : JSVal → CbOut)
  | opIfOk (effectFn : JSVal → CbOut)
  | opWatch (consumer : SResult → CbOut)
  | opCatch (handler : JSVal → CbOut)
  | opIfFail (handler : JSVal → CbOut)

/-- Applies one chain operation to a chain state. -/
def applyOp (c : ChainState) : ChainOp → ChainState
  | .opMap f => mapChain f c
  | .opFlatMap t => flatMapChain t c
  | .opEffect f => effectChain f c
  | .opIfOk f => ifOkChain f c
  | .opWatch k => watchChain k c
  | .opCatch h => catchChain h c
  | .opIfFail h => ifFailChain h c

/-- Field view of a SafeResult object as JavaScript sees it: the isOk
flag, the value field and the error field (the absent side holds
undefined). -/
structure ResultObj : Type where
  isOkF : Bool
  valueF : JSVal
  errorF : JSVal
deriving DecidableEq

/-- Object the chain's underlying result presents. -/
def toObj : SResult → ResultObj
  | .ok v => ⟨true, v, .undef⟩
  | .fail e => ⟨false, .undef, e⟩

/-- Embeds the spread copy built by the watch callback in src/core.ts
before invoking the consumer: a fresh object carrying the same three
fields. -/
def spreadCopy (o : ResultObj) : ResultObj := ⟨o.isOkF, o.valueF, o.errorF⟩

/-- One field mutation a consumer might perform on the result object it
receives. -/
inductive FieldWrite : Type where
  | wIsOk (b : Bool)
  | wValue (v : JSVal)
  | wError (e : JSVal)

/-- Applies one field mutation to a result object. -/
def writeField (o : ResultObj) : FieldWrite → ResultObj
  | .wIsOk b => ⟨b, o.valueF, o.errorF⟩
  | .wValue v => ⟨o.isOkF, v, o.errorF⟩
  | .wError e => ⟨o.isOkF, o.valueF, e⟩

/-- Reads a result object back as the result the chain continues with. -/
def fromObj (o : ResultObj) : SResult :=
  if o.isOkF then .ok o.valueF else .fail o.errorF

/-- Runs watch's snapshot protocol with a mutating consumer: the
consumer receives the spread copy as its own object and performs its
field writes on that object, while the chain itself continues from the
original object. Returns the object the chain continues with, paired
with the consumer's object after mutation. -/
def runWatchWithWrites (r : SResult) (writes : List FieldWrite) :
    ResultObj × ResultObj :=
  let original := toObj r
  let snapshot := spreadCopy original
  let mutated := writes.foldl writeField snapshot
  (original, mutated)

lemma instanceofError_normalizeError (e : JSVal) :
    instanceofError (normalizeError e) = true := by
  cases e <;> try rfl
  case obj i j => cases j <;> rfl

lemma sfail_of_instanceofError (e : JSVal) (h : instanceofError e = true) :
    sfail e = SResult.fail e := by
  cases e <;> first | rfl | exact absurd h (by simp [instanceofError])

lemma awaitVal_sresolved_not_promise :
    ∀ v w : JSVal, awaitVal v = SettleOut.sresolved w → isPromiseLike w = false := by
  intro v
  induction v with
  | num n => intro w h; cases h; rfl
  | str s => intro w h; cases h; rfl
  | boolean b => intro w h; cases h; rfl
  | undef => intro w h; cases h; rfl
  | errObj i m => intro w h; cases h; rfl
  | resolvedPromise v ih => intro w h; exact ih w h
  | rejectedPromise e ih => intro w h; cases h
  | obj i j => intro w h; cases h; rfl

lemma resultWF_sfail (e : JSVal) : resultWF (sfail e) = true := by
  have h := instanceofError_normalizeError e
  simp [resultWF, sfail, h]

lemma resultWF_applyFold (o : CbOut) : resultWF (applyFold o) = true := by
  cases o with
  | thrown e => exact resultWF_sfail e
  | ret v =>
    simp only [applyFold]
    cases hv : awaitVal v with
    | sresolved w =>
      simp [sok, resultWF, awaitVal_sresolved_not_promise v w hv]
    | srejected e => exact resultWF_sfail e

lemma chainWF_update (c : ChainState) (cb : SResult → CbOut) :
    chainWF (update c cb) = true := by
  cases c with
  | pending r => simpa [update, chainWF] using resultWF_applyFold (cb r)
  | immediate r =>
    simp only [update]
    cases h : cb r with
    | thrown e => simpa [chainWF] using resultWF_sfail e
    | ret v =>
      by_cases hp : isPromiseLike v = true
      · simpa [hp, chainWF] using resultWF_applyFold (.ret v)
      · simp only [Bool.not_eq_true] at hp
        simp [hp, chainWF, resultWF, sok]

lemma awaitVal_of_not_promise (w : JSVal) (h : isPromiseLike w = false) :
    awaitVal w = .sresolved w := by
  cases w <;> first | rfl | simp [isPromiseLike] at h

/-- Claim C1, counterexample: fromValue (safeValue) applied to a pending
value that rejects does not build an Immediate-Success chain and its
isOk is not true — the uniform promise test routes the value through the
pending transition, so isOk is a pending boolean resolving to false. -/
theorem C1_fromValue_counterexample :
    isOkOf (safeValue (.rejectedPromise (.errObj 1 "boom"))) = .pendingBool false ∧
    isOkOf (safeValue (.rejectedPromise (.errObj 1 "boom"))) ≠ .plain true ∧
    safeValue (.rejectedPromise (.errObj 1 "boom")) ≠
      .immediate (SResult.ok (.rejectedPromise (.errObj 1 "boom"))) := by
  decide

/-- Claim C1 (amended): for every non-pending value v, safeValue v is an
Immediate-Success chain wrapping v exactly, with unwrap returning v and
isOk true; for a pending v the chain is Pending, resolving to ok of the
settled value on fulfillment and to a failure (isOk false) on
rejection. -/
theorem C1_fromValue_amended (v : JSVal) :
    (isPromiseLike v = false →
      safeValue v = .immediate (SResult.ok v) ∧
      unwrap (safeValue v) = .val v ∧
      isOkOf (safeValue v) = .plain true) ∧
    (isPromiseLike v = true →
      (∀ w, awaitVal v = .sresolved w →
        safeValue v = .pending (SResult.ok w) ∧
        unwrap (safeValue v) = .pendingVal (.sresolved w) ∧
        isOkOf (safeValue v) = .pendingBool true) ∧
      (∀ e, awaitVal v = .srejected e →
        safeValue v = .pending (sfail e) ∧
        isOkOf (safeValue v) = .pendingBool false)) := by
  constructor
  · intro h
    simp [safeValue, mapChain, update, mapCb, h, sok, unwrap, isOkOf]
  · intro h
    constructor
    · intro w hw
      have hwp := awaitVal_sresolved_not_promise v w hw
      have hchain : safeValue v = .pending (SResult.ok w) := by
        simp [safeValue, mapChain, update, mapCb, h, applyFold, hw, sok]
      refine ⟨hchain, ?_, ?_⟩
      · rw [hchain]
        simp [unwrap, awaitVal_of_not_promise w hwp]
      · rw [hchain]; rfl
    · intro e he
      have hchain : safeValue v = .pending (sfail e) := by
        simp [safeValue, mapChain, update, mapCb, h, applyFold, he, sok]
      refine ⟨hchain, ?_⟩
      rw [hchain]
      simp [sfail, isOkOf]

/-- Claim C1 witness: the amended theorem applied to the concrete
non-pending value 5. -/
theorem C1_fromValue_witness :
    safeValue (.num 5) = .immediate (SResult.ok (.num 5)) ∧
    unwrap (safeValue (.num 5)) = .val (.num 5) ∧
    isOkOf (safeValue (.num 5)) = .plain true :=
  (C1_fromValue_amended (.num 5)).1 (by decide)

lemma stateResult_foldOutcomeSpec (o : CbOut) :
    stateResult (foldOutcomeSpec o) = applyFold o := by
  cases o with
  | thrown e => rfl
  | ret v =>
    by_cases hp : isPromiseLike v = true
    · simp [foldOutcomeSpec, hp, stateResult, applyFold]
    · simp only [Bool.not_eq_true] at hp
      simp [foldOutcomeSpec, hp, stateResult, applyFold,
        awaitVal_of_not_promise v hp, sok]

/-- Claim C2: the updater from src/result.ts refines the spec's fold
rules — pending input keeps the operation pending with the callback
applied to the resolved result, a pending return resolves to ok or fail
per its settlement, an ordinary return is an immediate success and a
synchronous raise an immediate failure. -/
theorem C2_update_matches_spec (prev : ChainState) (cb : SResult → CbOut) :
    update prev cb = updateSpec prev cb := by
  cases prev with
  | pending r =>
    simp [update, updateSpec, stateResult_foldOutcomeSpec]
  | immediate r =>
    simp only [update, updateSpec]
    cases h : cb r with
    | thrown e => rfl
    | ret v =>
      by_cases hp : isPromiseLike v = true
      · simp [foldOutcomeSpec, hp, applyFold]
      · simp only [Bool.not_eq_true] at hp
        simp [foldOutcomeSpec, hp]

/-- Claim C4, counterexample: normalizing a value whose serialization
fails does not fall back to the raw value itself — the catch clause
returns the error raised by the serialization attempt (its parameter
shadows the input), here the TypeError thrown by JSON.stringify. -/
theorem C4_normalize_counterexample :
    normalizeError (.obj 7 none) = .errObj 0 "Converting circular structure to JSON" ∧
    normalizeError (.obj 7 none) ≠ .obj 7 none := by
  decide

/-- Claim C4 (amended): error normalization is total (never raises) and
agrees with the amended coercion rule everywhere: Error instances pass
through unchanged, strings become structured errors with that message,
and other values become structured errors with the serialized message,
falling back to the value raised by the serialization attempt. -/
theorem C4_normalize_amended (e : JSVal) :
    normalizeError e = normalizeErrorSpec e := by
  cases e <;> rfl

/-- Claim C3: watch isolation — for every well-formed chain and every
consumer, including ones that raise or return pending values, the
watched chain is the very same chain state, so unwrap and isOk are
unchanged and nothing the consumer produces is propagated or awaited;
the chain outcome is independent of the consumer on both success and
failure. -/
theorem C3_watch_isolation (c : ChainState) (hwf : chainWF c = true)
    (consumer : SResult → CbOut) :
    watchChain consumer c = c ∧
    unwrap (watchChain consumer c) = unwrap c ∧
    isOkOf (watchChain consumer c) = isOkOf c := by
  have key : watchChain consumer c = c := by
    cases c with
    | immediate r =>
      cases r with
      | ok v =>
        simp only [chainWF, resultWF, Bool.not_eq_eq_eq_not, Bool.not_true] at hwf
        simp [watchChain, update, watchCb, hwf, sok]
      | fail e =>
        simp only [chainWF, resultWF] at hwf
        simp [watchChain, update, watchCb, sfail_of_instanceofError e hwf]
    | pending r =>
      cases r with
      | ok v =>
        simp only [chainWF, resultWF, Bool.not_eq_eq_eq_not, Bool.not_true] at hwf
        simp [watchChain, update, watchCb, applyFold,
          awaitVal_of_not_promise v hwf, sok]
      | fail e =>
        simp only [chainWF, resultWF] at hwf
        simp [watchChain, update, watchCb, applyFold,
          sfail_of_instanceofError e hwf]
  exact ⟨key, by rw [key], by rw [key]⟩

/-- Claim C3 witness: a raising consumer on a concrete success chain
leaves the chain untouched. -/
theorem C3_watch_witness :
    watchChain (fun _ => .thrown (.errObj 9 "observer blew up"))
      (.immediate (SResult.ok (.num 1))) = .immediate (SResult.ok (.num 1)) :=
  (C3_watch_isolation (.immediate (SResult.ok (.num 1))) (by decide)
    (fun _ => .thrown (.errObj 9 "observer blew up"))).1

/-- Claim C5: recovery — on a well-formed failing chain, catch applies
the handler to the stored (normalized) error: a handler return settling
to w makes the unwrapped outcome settle to w; a handler raise or a
rejecting pending return makes the chain a new failure of that raised
value (not retried or nested); on a success chain the handler is
irrelevant and the chain passes through unchanged; ifFail behaves
identically to catch. -/
theorem C5_recovery (c : ChainState) (hwf : chainWF c = true)
    (handler : JSVal → CbOut) :
    (∀ e, (c = .immediate (SResult.fail e) ∨ c = .pending (SResult.fail e)) →
      (∀ v w, handler e = .ret v → awaitVal v = .sresolved w →
        uwSettle (unwrap (catchChain handler c)) = .sresolved w) ∧
      (∀ t, handler e = .thrown t →
        stateResult (catchChain handler c) = sfail t) ∧
      (∀ v t, handler e = .ret v → awaitVal v = .srejected t →
        stateResult (catchChain handler c) = sfail t)) ∧
    (∀ v, (c = .immediate (SResult.ok v) ∨ c = .pending (SResult.ok v)) →
      catchChain handler c = c) ∧
    ifFailChain handler c = catchChain handler c := by
  have hcbs : ifFailCb handler = catchCb handler := by
    funext r; cases r <;> rfl
  refine ⟨?_, ?_, by simp [ifFailChain, catchChain, hcbs]⟩
  · intro e hfl
    refine ⟨?_, ?_, ?_⟩
    · intro v w hret hres
      have hwp := awaitVal_sresolved_not_promise v w hres
      rcases hfl with h | h <;> subst h
      · by_cases hp : isPromiseLike v = true
        · simp [catchChain, update, catchCb, hret, hp, applyFold, hres, sok,
            unwrap, uwSettle, awaitVal_of_not_promise w hwp]
        · simp only [Bool.not_eq_true] at hp
          have := awaitVal_of_not_promise v hp
          rw [this] at hres
          cases hres
          simp [catchChain, update, catchCb, hret, hp, sok, unwrap, uwSettle]
      · simp [catchChain, update, catchCb, hret, applyFold, hres, sok,
          unwrap, uwSettle, awaitVal_of_not_promise w hwp]
    · intro t hthr
      rcases hfl with h | h <;> subst h <;>
        simp [catchChain, update, catchCb, hthr, applyFold, stateResult]
    · intro v t hret hres
      rcases hfl with h | h <;> subst h
      · have hp : isPromiseLike v = true := by
          by_contra hp
          simp only [Bool.not_eq_true] at hp
          rw [awaitVal_of_not_promise v hp] at hres
          cases hres
        simp [catchChain, update, catchCb, hret, hp, applyFold, hres, stateResult]
      · simp [catchChain, update, catchCb, hret, applyFold, hres, stateResult]
  · intro v hok
    rcases hok with h | h <;> subst h
    · simp only [chainWF, resultWF, Bool.not_eq_eq_eq_not, Bool.not_true] at hwf
      simp [catchChain, update, catchCb, hwf, sok]
    · simp only [chainWF, resultWF, Bool.not_eq_eq_eq_not, Bool.not_true] at hwf
      simp [catchChain, update, catchCb, applyFold,
        awaitVal_of_not_promise v hwf, sok]

/-- Claim C5 witness: on a concrete failing chain the handler's return 9
becomes the settled outcome, and on a concrete success chain the chain
passes through unchanged. -/
theorem C5_recovery_witness :
    uwSettle (unwrap (catchChain (fun _ => .ret (.num 9))
      (.immediate (SResult.fail (.errObj 3 "boom"))))) = .sresolved (.num 9) ∧
    catchChain (fun _ => .ret (.num 9)) (.immediate (SResult.ok (.num 1))) =
      .immediate (SResult.ok (.num 1)) :=
  ⟨((C5_recovery (.immediate (SResult.fail (.errObj 3 "boom"))) (by decide)
      (fun _ => .ret (.num 9))).1 (.errObj 3 "boom") (Or.inl rfl)).1
      (.num 9) (.num 9) rfl rfl,
   (C5_recovery (.immediate (SResult.ok (.num 1))) (by decide)
      (fun _ => .ret (.num 9))).2.1 (.num 1) (Or.inl rfl)⟩

/-- Claim C6: effect transparency — on a well-formed success chain, an
effect function returning an ordinary value leaves the chain state
exactly unchanged; a pending return delays the chain (it becomes
pending) but the settled outcome is still the original value; a raising
effect function or a rejecting pending return propagates as the chain's
own failure; ifOk behaves identically to effect. -/
theorem C6_effect_transparency (c : ChainState) (hwf : chainWF c = true)
    (f : JSVal → CbOut) :
    (∀ v, (c = .immediate (SResult.ok v) ∨ c = .pending (SResult.ok v)) →
      (∀ u, f v = .ret u → isPromiseLike u = false → effectChain f c = c) ∧
      (∀ u w, f v = .ret u → isPromiseLike u = true →
        awaitVal u = .sresolved w →
        effectChain f c = .pending (SResult.ok v) ∧
        uwSettle (unwrap (effectChain f c)) = .sresolved v) ∧
      (∀ u t, f v = .ret u → isPromiseLike u = true →
        awaitVal u = .srejected t → effectChain f c = .pending (sfail t)) ∧
      (∀ t, f v = .thrown t → stateResult (effectChain f c) = sfail t)) ∧
    ifOkChain f c = effectChain f c := by
  have hcbs : ifOkCb f = effectCb f := by
    funext r; cases r <;> rfl
  refine ⟨?_, by simp [ifOkChain, effectChain, hcbs]⟩
  intro v hok
  have hv : isPromiseLike v = false := by
    rcases hok with h | h <;> subst h <;>
      simpa [chainWF, resultWF] using hwf
  refine ⟨?_, ?_, ?_, ?_⟩
  · intro u hret hp
    rcases hok with h | h <;> subst h
    · simp [effectChain, update, effectCb, hret, hp, hv, sok]
    · simp [effectChain, update, effectCb, hret, hp, applyFold,
        awaitVal_of_not_promise v hv, sok]
  · intro u w hret hp hres
    have hcb : effectCb f (SResult.ok v) = .ret (.resolvedPromise v) := by
      simp [effectCb, hret, hp, thenReturn, hres]
    have hchain : effectChain f c = .pending (SResult.ok v) := by
      rcases hok with h | h <;> subst h
      · simp [effectChain, update, hcb, applyFold, isPromiseLike, awaitVal,
          awaitVal_of_not_promise v hv, sok]
      · simp [effectChain, update, hcb, applyFold, awaitVal,
          awaitVal_of_not_promise v hv, sok]
    refine ⟨hchain, ?_⟩
    rw [hchain]
    simp [unwrap, uwSettle, awaitVal_of_not_promise v hv]
  · intro u t hret hp hres
    have hcb : effectCb f (SResult.ok v) = .ret (.rejectedPromise t) := by
      simp [effectCb, hret, hp, thenReturn, hres]
    rcases hok with h | h <;> subst h
    · simp [effectChain, update, hcb, applyFold, isPromiseLike, awaitVal]
    · simp [effectChain, update, hcb, applyFold, awaitVal]
  · intro t hthr
    rcases hok with h | h <;> subst h <;>
      simp [effectChain, update, effectCb, hthr, applyFold, stateResult]

/-- Claim C6 witness: a concrete effect function returning 0 leaves the
concrete success chain wrapping 7 exactly unchanged. -/
theorem C6_effect_witness :
    effectChain (fun _ => .ret (.num 0)) (.immediate (SResult.ok (.num 7))) =
      .immediate (SResult.ok (.num 7)) :=
  (((C6_effect_transparency (.immediate (SResult.ok (.num 7))) (by decide)
      (fun _ => .ret (.num 0))).1 (.num 7) (Or.inl rfl)).1
    (.num 0) rfl (by decide))

/-- Claim C8: short-circuit — on a well-formed failing chain, map
produces the very same chain state whatever the transform is, so the
transform is never consulted and the original error object is carried
unchanged. -/
theorem C8_map_short_circuit (c : ChainState) (e : JSVal)
    (hwf : chainWF c = true)
    (hfail : c = .immediate (SResult.fail e) ∨ c = .pending (SResult.fail e)) :
    ∀ transform, mapChain transform c = c := by
  intro f
  rcases hfail with h | h <;> subst h <;>
    simp only [chainWF, resultWF] at hwf <;>
    simp [mapChain, update, mapCb, applyFold, sfail_of_instanceofError e hwf]

/-- Claim C8 witness: the short-circuit theorem applied to a concrete
failing chain and a concrete transform. -/
theorem C8_map_witness :
    mapChain (fun _ => .ret (.num 99)) (.immediate (SResult.fail (.errObj 4 "err"))) =
      .immediate (SResult.fail (.errObj 4 "err")) :=
  C8_map_short_circuit (.immediate (SResult.fail (.errObj 4 "err"))) (.errObj 4 "err")
    (by decide) (Or.inl rfl) (fun _ => .ret (.num 99))

lemma unwrap_pending_ne_raised (r : SResult) (e : JSVal) :
    unwrap (.pending r) ≠ .raised e := by
  cases r <;> simp [unwrap]

/-- Claim C7, counterexample: on a well-formed immediate-failure chain,
orElse with a fallback that is a rejecting pending value does raise
through its pending form — the fallback is folded like any callback
outcome, so its rejection surfaces when the resulting pending chain is
unwrapped. -/
theorem C7_orelse_counterexample :
    chainWF (.immediate (SResult.fail (.errObj 1 "boom"))) = true ∧
    raisesOut (orElseRun (.immediate (SResult.fail (.errObj 1 "boom")))
      (.rejectedPromise (.errObj 2 "reject"))) = true ∧
    orElseRun (.immediate (SResult.fail (.errObj 1 "boom")))
      (.rejectedPromise (.errObj 2 "reject")) =
      .pendingVal (.srejected (.errObj 2 "reject")) := by
  decide

/-- Claim C7 (amended): for every well-formed chain, isOk never raises
(it is a plain boolean for an immediate chain and a pending boolean for
a pending chain), and orElse never raises synchronously for any
fallback; for every non-pending fallback, orElse never raises at all
and returns the value, or the fallback on failure, immediately or
through its pending form — only a pending fallback that rejects can
surface a rejection. -/
theorem C7_only_unwrap_raises_amended (c : ChainState) (hwf : chainWF c = true) :
    (∃ b, isOkOf c = .plain b ∨ isOkOf c = .pendingBool b) ∧
    (∀ fb e, orElseRun c fb ≠ .raised e) ∧
    (∀ fb, isPromiseLike fb = false → raisesOut (orElseRun c fb) = false) ∧
    (∀ fb v, isPromiseLike fb = false → c = .immediate (SResult.ok v) →
      orElseRun c fb = .val v) ∧
    (∀ fb e, isPromiseLike fb = false → c = .immediate (SResult.fail e) →
      orElseRun c fb = .val fb) ∧
    (∀ fb v, isPromiseLike fb = false → c = .pending (SResult.ok v) →
      orElseRun c fb = .pendingVal (.sresolved v)) ∧
    (∀ fb e, isPromiseLike fb = false → c = .pending (SResult.fail e) →
      orElseRun c fb = .pendingVal (.sresolved fb)) := by
  have hval : ∀ v, (c = .immediate (SResult.ok v) ∨ c = .pending (SResult.ok v)) →
      isPromiseLike v = false := by
    intro v h
    rcases h with h | h <;> subst h <;> simpa [chainWF, resultWF] using hwf
  refine ⟨?_, ?_, ?_, ?_, ?_, ?_, ?_⟩
  · cases c with
    | immediate r => cases r with
      | ok v => exact ⟨true, Or.inl rfl⟩
      | fail e => exact ⟨false, Or.inl rfl⟩
    | pending r => cases r with
      | ok v => exact ⟨true, Or.inr rfl⟩
      | fail e => exact ⟨false, Or.inr rfl⟩
  · intro fb e
    cases c with
    | immediate r =>
      cases r with
      | ok v =>
        have hv := hval v (Or.inl rfl)
        simp [orElseRun, update, orElseCb, hv, sok, unwrap]
      | fail e' =>
        by_cases hp : isPromiseLike fb = true
        · have hrw : orElseRun (.immediate (SResult.fail e')) fb =
              unwrap (.pending (applyFold (.ret fb))) := by
            simp [orElseRun, update, orElseCb, hp]
          rw [hrw]
          exact unwrap_pending_ne_raised _ e
        · simp only [Bool.not_eq_true] at hp
          simp [orElseRun, update, orElseCb, hp, sok, unwrap]
    | pending r =>
      have hrw : orElseRun (.pending r) fb =
          unwrap (.pending (applyFold (orElseCb fb r))) := rfl
      rw [hrw]
      exact unwrap_pending_ne_raised _ e
  · intro fb hp
    cases c with
    | immediate r =>
      cases r with
      | ok v =>
        have hv := hval v (Or.inl rfl)
        simp [orElseRun, update, orElseCb, hv, sok, unwrap, raisesOut]
      | fail e =>
        simp [orElseRun, update, orElseCb, hp, sok, unwrap, raisesOut]
    | pending r =>
      cases r with
      | ok v =>
        have hv := hval v (Or.inr rfl)
        simp [orElseRun, update, orElseCb, applyFold,
          awaitVal_of_not_promise v hv, sok, unwrap, raisesOut,
          awaitVal_of_not_promise v hv]
      | fail e =>
        simp [orElseRun, update, orElseCb, applyFold,
          awaitVal_of_not_promise fb hp, sok, unwrap, raisesOut,
          awaitVal_of_not_promise fb hp]
  · intro fb v hp hc
    subst hc
    have hv := hval v (Or.inl rfl)
    simp [orElseRun, update, orElseCb, hv, sok, unwrap]
  · intro fb e hp hc
    subst hc
    simp [orElseRun, update, orElseCb, hp, sok, unwrap]
  · intro fb v hp hc
    subst hc
    have hv := hval v (Or.inr rfl)
    simp [orElseRun, update, orElseCb, applyFold,
      awaitVal_of_not_promise v hv, sok, unwrap]
  · intro fb e hp hc
    subst hc
    simp [orElseRun, update, orElseCb, applyFold,
      awaitVal_of_not_promise fb hp, sok, unwrap]

/-- Claim C7 witness: the amended theorem applied to a concrete failing
chain with a concrete non-pending fallback 100. -/
theorem C7_orelse_witness :
    orElseRun (.immediate (SResult.fail (.errObj 5 "e"))) (.num 100) =
      .val (.num 100) :=
  (C7_only_unwrap_raises_amended (.immediate (SResult.fail (.errObj 5 "e")))
    (by decide)).2.2.2.2.1 (.num 100) (.errObj 5 "e") (by decide) rfl

lemma isPendingChain_applyOp (c : ChainState) (hp : isPendingChain c = true)
    (op : ChainOp) : isPendingChain (applyOp c op) = true := by
  cases c with
  | immediate r => simp [isPendingChain] at hp
  | pending r => cases op <;> rfl

/-- Claim C9: pending monotonicity — once a chain is pending, every
later chain produced by any sequence of chain operations is still
pending, and its unwrap and isOk are the pending forms, resolving only
through pending resolution. -/
theorem C9_pending_monotonic (c : ChainState) (hp : isPendingChain c = true)
    (ops : List ChainOp) :
    isPendingChain (ops.foldl applyOp c) = true ∧
    (∃ s, unwrap (ops.foldl applyOp c) = .pendingVal s) ∧
    (∃ b, isOkOf (ops.foldl applyOp c) = .pendingBool b) := by
  have key : ∀ (l : List ChainOp) (d : ChainState), isPendingChain d = true →
      isPendingChain (l.foldl applyOp d) = true := by
    intro l
    induction l with
    | nil => intro d h; exact h
    | cons op rest ih => intro d h; exact ih _ (isPendingChain_applyOp d h op)
  have hk := key ops c hp
  refine ⟨hk, ?_, ?_⟩
  · cases hfold : List.foldl applyOp c ops with
    | immediate r => rw [hfold] at hk; simp [isPendingChain] at hk
    | pending r =>
      cases r with
      | ok v => exact ⟨awaitVal v, rfl⟩
      | fail e => exact ⟨.srejected e, rfl⟩
  · cases hfold : List.foldl applyOp c ops with
    | immediate r => rw [hfold] at hk; simp [isPendingChain] at hk
    | pending r =>
      cases r with
      | ok v => exact ⟨true, rfl⟩
      | fail e => exact ⟨false, rfl⟩

/-- Claim C9 witness: a concrete pending chain stays pending through a
concrete map step. -/
theorem C9_pending_witness :
    isPendingChain (List.foldl applyOp (.pending (SResult.ok (.num 1)))
      [ChainOp.opMap (fun v => .ret v)]) = true :=
  (C9_pending_monotonic (.pending (SResult.ok (.num 1))) (by decide)
    [ChainOp.opMap (fun v => .ret v)]).1

/-- Claim C10: the snapshot handed to a watch consumer is a shallow
copy — whatever field writes the consumer performs on the object it
receives, the object the chain continues from still carries the
original fields, and reading it back yields the original result
unchanged. -/
theorem C10_snapshot_frame (r : SResult) (writes : List FieldWrite) :
    (runWatchWithWrites r writes).1 = toObj r ∧
    fromObj (runWatchWithWrites r writes).1 = r := by
  refine ⟨rfl, ?_⟩
  cases r <;> rfl

end TsSafe
